import Mathlib

/-!
# illumos TUN backend and UAPI listener of wireguard-go

A shallow embedding of `tun/tun_illumos.go` (`NativeTun`, `CreateTUN`, `Read`,
`Write`, `Close`) and of the accept worker of `ipc/uapi_illumos.go`
(`UAPIListen`), together with theorems about descriptor rollback, unit-number
probing, transport I/O, teardown and listener backpressure.

The operating system is a *stub*: a deterministic oracle that answers every
primitive the Go code issues.  The oracle sees the whole history of earlier
calls, so it can fail any call at any point.  Every call is logged, and the
descriptor table is tracked, so that leaks and double closes are observable.
-/

namespace Tun

/-! ## Go values -/

/-- A `unix.Errno` value. -/
abbrev Errno := Nat

/-- The errno `unix.EEXIST` (its numeric value on illumos). -/
def EEXIST : Errno := 17

/-- A non-nil Go `error` value: either built by `fmt.Errorf` or a `unix.Errno`. -/
inductive GoError where
  | errorf (msg : String)
  | errno (e : Errno)
deriving DecidableEq, Repr

/-- The Go interface type `error`; `none` is `nil`. -/
abbrev error := Option GoError

/-- Outcome of running a piece of Go code: it returns, it panics, or the
goroutine blocks forever on a channel operation. -/
inductive Exec (α : Type) where
  | ret (a : α)
  | panic (msg : String)
  | block
deriving DecidableEq, Repr

/-! ## Channels -/

/-- A buffered Go channel: pending values (oldest first), capacity, closed flag. -/
structure Chan (α : Type) where
  buf : List α
  cap : Nat
  closed : Bool
deriving DecidableEq, Repr

/-- The Go expression `make(chan α, cap)`. -/
def Chan.make {α : Type} (cap : Nat) : Chan α :=
  { buf := [], cap := cap, closed := false }

/-- The Go statement `ch <- v` on a possibly nil channel, with no receiver
around: panics on a closed channel, blocks on a nil or full one, buffers the
value otherwise. -/
def Chan.send {α : Type} : Option (Chan α) → α → Exec (Chan α)
  | none, _ => .block
  | some ch, v =>
    if ch.closed then .panic "send on closed channel"
    else if ch.buf.length < ch.cap then .ret { ch with buf := ch.buf ++ [v] }
    else .block

/-- The Go builtin `close(ch)` on a possibly nil channel. -/
def Chan.close {α : Type} : Option (Chan α) → Exec (Chan α)
  | none => .panic "close of nil channel"
  | some ch =>
    if ch.closed then .panic "close of closed channel"
    else .ret { ch with closed := true }

/-! ## The stub operating system -/

/-- Open flags used by the source (`unix.O_RDWR`). -/
inductive OpenFlag where
  | O_RDWR
deriving DecidableEq, Repr

/-- STREAMS ioctl request codes used by the source, kept symbolic. -/
inductive IoctlReq where
  | I_PUSH
  | IF_UNITSEL
deriving DecidableEq, Repr

/-- The OS primitives the two source files call, with their arguments. -/
inductive OSCall where
  | unixOpen (path : String) (mode : OpenFlag) (perm : Nat)
  | osOpenFile (path : String) (flag : OpenFlag) (perm : Nat)
  | unixClose (fd : Int)
  | fileClose (fd : Int)
  | IoctlTunNewPPA (fd : Int) (ppa : Int)
  | IoctlSetString (fd : Int) (req : IoctlReq) (value : String)
  | IoctlSetPointerInt (fd : Int) (req : IoctlReq) (value : Int)
  | IoctlPlink (fd : Int) (otherFd : Int)
  | IoctlPunlink (fd : Int) (id : Int)
  | IoctlSetIPMuxID (fd : Int) (name : String) (id : Int)
  | IoctlGetIPMuxID (fd : Int) (name : String)
  | Getmsg (fd : Int) (data : List UInt8)
  | Putmsg (fd : Int) (data : List UInt8) (flags : Int)
deriving DecidableEq, Repr

/-- What a primitive hands back: its integer result (a descriptor, a unit
number, a mux id), the data part of a received message, and its error. -/
structure Response where
  ret : Int
  data : List UInt8
  err : Option Errno
deriving DecidableEq, Repr

/-- One logged primitive call with the answer it got. -/
structure Syscall where
  call : OSCall
  resp : Response
deriving DecidableEq, Repr

/-- A stub OS: given the log of all earlier calls and the call being made, it
decides the answer. -/
abbrev StubOS := List Syscall → OSCall → Response

/-- Observable OS state: the open descriptors (one entry per open) and the log
of calls in the order they were issued. -/
structure World where
  openFds : List Int
  trace : List Syscall
deriving DecidableEq, Repr

/-- Effect of an answered call on the descriptor table: a successful open adds
the returned descriptor, a close releases its descriptor, anything else leaves
the table alone. -/
def effect (fds : List Int) (c : OSCall) (r : Response) : List Int :=
  match c with
  | .unixOpen _ _ _ => if r.err.isNone then r.ret :: fds else fds
  | .osOpenFile _ _ _ => if r.err.isNone then r.ret :: fds else fds
  | .unixClose fd => fds.erase fd
  | .fileClose fd => fds.erase fd
  | _ => fds

/-- Issue one primitive against the stub: the answer and the world afterwards. -/
def sys (os : StubOS) (w : World) (c : OSCall) : Response × World :=
  (os w.trace c,
   { openFds := effect w.openFds c (os w.trace c),
     trace := w.trace ++ [⟨c, os w.trace c⟩] })

/-! ## `tun/tun_illumos.go` -/

/-- Lifecycle events of a tun device (`tun.Event`); only `EventUp` is produced
by this backend. -/
inductive Event where
  | EventUp
  | EventDown
  | EventMTUUpdate
deriving DecidableEq, Repr

/-- The struct `NativeTun`.  `tunFile` is the `*os.File` (`none` is `nil`,
otherwise the descriptor it wraps); the two channels may be nil as well. -/
structure NativeTun where
  tunFile : Option Int
  ip_fd : Int
  name : String
  mtu : Int
  events : Option (Chan Event)
  errors : Option (Chan error)
deriving DecidableEq, Repr

/-- The method `(*os.File).Fd` as used by the source: the wrapped descriptor,
and `-1` on a nil file. -/
def Fd (f : Option Int) : Int := f.getD (-1)

/-- The method `Name`. -/
def NativeTun.Name (tun : NativeTun) : String × error := (tun.name, none)

/-- The method `Flush`. -/
def NativeTun.Flush (_tun : NativeTun) : error := none

/-- The method `MTU`. -/
def NativeTun.MTU (tun : NativeTun) : Int × error := (tun.mtu, none)

/-- The method `File`. -/
def NativeTun.File (tun : NativeTun) : Option Int := tun.tunFile

/-- The method `Events`. -/
def NativeTun.Events (tun : NativeTun) : Option (Chan Event) := tun.events

/-- The Go slice expression `buf[offset:]`: `none` when it panics. -/
def sliceFrom (buf : List UInt8) (offset : Int) : Option (List UInt8) :=
  if 0 ≤ offset ∧ offset ≤ buf.length then some (buf.drop offset.toNat) else none

/-- The bytes a `Getmsg` hands back in its data slice, when the kernel
answered with `data` and the data buffer passed was `dst`: the slice is a
prefix of `dst`, so no more than `len(dst)` bytes are delivered. -/
def delivered (dst data : List UInt8) : List UInt8 := data.take dst.length

/-- The data buffer `dst` after a `Getmsg` that answered with `data`: the
delivered bytes overwrite `dst` from its first byte on, the bytes of `dst`
past them are kept. -/
def recvInto (dst data : List UInt8) : List UInt8 :=
  delivered dst data ++ dst.drop (delivered dst data).length

/-- The method `Read`.  The `select` takes a pending error when the error
queue has one; otherwise its `default` branch does one `unix.Getmsg` whose
data buffer is the slice `buf[offset:]`, so the bytes received land in `buf`
from index `offset` on and the bytes before `offset` are not touched.  A
failed `Getmsg` delivers nothing.  Returns `(n, err)`, the contents of `buf`
after the call, the handle and the world afterwards. -/
def NativeTun.Read (os : StubOS) (tun : NativeTun) (buf : List UInt8) (offset : Int)
    (w : World) : Exec ((Int × error) × List UInt8 × NativeTun × World) :=
  match tun.errors with
  | some ⟨e :: rest, cap, closed⟩ =>
    .ret ((0, e), buf, { tun with errors := some ⟨rest, cap, closed⟩ }, w)
  | some ⟨[], _, true⟩ =>
    -- receive on a closed, drained channel yields the zero value
    .ret ((0, none), buf, tun, w)
  | _ =>
    match sliceFrom buf offset with
    | none => .panic "slice bounds out of range"
    | some dst =>
      let p := sys os w (.Getmsg (Fd tun.tunFile) dst)
      match p.1.err with
      | some e => .ret ((0, some (.errno e)), buf, tun, p.2)
      | none =>
        let read := delivered dst p.1.data
        .ret (((read.length : Int), none),
              buf.take offset.toNat ++ recvInto dst p.1.data, tun, p.2)

/-- The method `Write`. -/
def NativeTun.Write (os : StubOS) (tun : NativeTun) (buf : List UInt8) (offset : Int)
    (w : World) : Exec ((Int × error) × World) :=
  match sliceFrom buf offset with
  | none => .panic "slice bounds out of range"
  | some src =>
    let p := sys os w (.Putmsg (Fd tun.tunFile) src 0)
    match p.1.err with
    | some e => .ret ((0, some (.errno e)), p.2)
    | none => .ret (((buf.length : Int), none), p.2)

/-- The tail of `Close` after the control descriptor has been dealt with
(lines 92 to 101): close and forget the transport file, then close the event
channel when the field is not nil. -/
def NativeTun.closeTransport (os : StubOS) (tun : NativeTun) (w : World) :
    Exec (error × NativeTun × World) :=
  let tw : NativeTun × World :=
    match tun.tunFile with
    | some fd => ({ tun with tunFile := none }, (sys os w (.fileClose fd)).2)
    | none => (tun, w)
  match tw.1.events with
  | some ch =>
    match Chan.close (some ch) with
    | .ret ch1 => .ret (none, { tw.1 with events := some ch1 }, tw.2)
    | .panic msg => .panic msg
    | .block => .block
  | none => .ret (none, tw.1, tw.2)

/-- The method `Close`.  Returns the error, the handle and the world
afterwards, or the panic raised. -/
def NativeTun.Close (os : StubOS) (tun : NativeTun) (w : World) :
    Exec (error × NativeTun × World) :=
  if 0 ≤ tun.ip_fd then
    let p1 := sys os w (.IoctlGetIPMuxID tun.ip_fd tun.name)
    match p1.1.err with
    | some e => .ret (some (.errno e), tun, p1.2)
    | none =>
      let id := p1.1.ret
      let p2 := sys os p1.2 (.IoctlPunlink tun.ip_fd id)
      match p2.1.err with
      | some e => .ret (some (.errno e), tun, p2.2)
      | none =>
        let p3 := sys os p2.2 (.unixClose tun.ip_fd)
        NativeTun.closeTransport os { tun with ip_fd := -1 } p3.2
  else NativeTun.closeTransport os tun w

/-- The function `CreateTUNFromFile`: always unsupported. -/
def CreateTUNFromFile (_file : Option Int) (_mtu : Int) : Option NativeTun × error :=
  (none, some (.errorf "CreateTUNFromFile() not currently supported"))

/-- The probing loop of `CreateTUN` (lines 153 to 166):
`for try := 0; try < 128; try++`.  The first argument counts the iterations
still allowed (`128 - try`), `ppa` carries the variable assigned by every
attempt.  `.error e` means the loop hit a non-conflict error `e` (the caller
rolls back and returns it); `.ok ppa` means the loop was left, by `break` or
because the bound was reached, with `ppa` holding the last value assigned. -/
def newPPALoop (os : StubOS) (fd : Int) :
    Nat → Int → Int → World → Except Errno Int × World
  | 0, _, ppa, w => (.ok ppa, w)
  | n + 1, try_, _, w =>
    let p := sys os w (.IoctlTunNewPPA fd try_)
    match p.1.err with
    | some e =>
      if e = EEXIST then newPPALoop os fd n (try_ + 1) p.1.ret p.2
      else (.error e, p.2)
    | none => (.ok p.1.ret, p.2)

/-- The rest of `CreateTUN` once the probing loop is left (lines 168 to 241):
name the interface, open the temporary descriptor, push `ip`, select the unit,
link, close the temporary descriptor, register the mux id, build the handle,
and run the deferred send of `EventUp`. -/
def plumb (os : StubOS) (mtu : Int) (ip_fd tunFd ppa : Int) (w : World) :
    Exec ((Option NativeTun × error) × World) :=
  let dev_node := "/dev/tun"
  let name := "tun" ++ toString ppa
  let p5 := sys os w (.unixOpen dev_node .O_RDWR 0)
  match p5.1.err with
  | some _ =>
    let w1 := (sys os p5.2 (.unixClose ip_fd)).2
    let w2 := (sys os w1 (.fileClose tunFd)).2
    .ret ((none, some (.errorf ("Could not open second TUN (" ++ dev_node ++ ")"))), w2)
  | none =>
    let if_fd := p5.1.ret
    let p6 := sys os p5.2 (.IoctlSetString if_fd .I_PUSH "ip")
    match p6.1.err with
    | some e =>
      let w1 := (sys os p6.2 (.unixClose if_fd)).2
      let w2 := (sys os w1 (.unixClose ip_fd)).2
      let w3 := (sys os w2 (.fileClose tunFd)).2
      .ret ((none, some (.errno e)), w3)
    | none =>
      let p7 := sys os p6.2 (.IoctlSetPointerInt if_fd .IF_UNITSEL ppa)
      match p7.1.err with
      | some e =>
        let w1 := (sys os p7.2 (.unixClose if_fd)).2
        let w2 := (sys os w1 (.unixClose ip_fd)).2
        let w3 := (sys os w2 (.fileClose tunFd)).2
        .ret ((none, some (.errno e)), w3)
      | none =>
        let p8 := sys os p7.2 (.IoctlPlink ip_fd if_fd)
        match p8.1.err with
        | some e =>
          let w1 := (sys os p8.2 (.unixClose if_fd)).2
          let w2 := (sys os w1 (.unixClose ip_fd)).2
          let w3 := (sys os w2 (.fileClose tunFd)).2
          .ret ((none, some (.errno e)), w3)
        | none =>
          let muxid := p8.1.ret
          let w9 := (sys os p8.2 (.unixClose if_fd)).2
          let p10 := sys os w9 (.IoctlSetIPMuxID ip_fd name muxid)
          match p10.1.err with
          | some e =>
            let w1 := (sys os p10.2 (.IoctlPunlink ip_fd muxid)).2
            let w2 := (sys os w1 (.unixClose ip_fd)).2
            let w3 := (sys os w2 (.fileClose tunFd)).2
            .ret ((none, some (.errno e)), w3)
          | none =>
            let tun : NativeTun :=
              { events := some (Chan.make 10)
                errors := some (Chan.make 1)
                mtu := mtu
                name := name
                tunFile := some tunFd
                ip_fd := ip_fd }
            match Chan.send tun.events Event.EventUp with
            | .ret ch => .ret ((some { tun with events := some ch }, none), p10.2)
            | .panic msg => .panic msg
            | .block => .block

/-- The function `CreateTUN`. -/
def CreateTUN (os : StubOS) (name : String) (mtu : Int) (w : World) :
    Exec ((Option NativeTun × error) × World) :=
  if name ≠ "tun" then
    .ret ((none, some (.errorf "Interface name must be 'tun'")), w)
  else
    let ip_node := "/dev/udp"
    let dev_node := "/dev/tun"
    let p1 := sys os w (.unixOpen ip_node .O_RDWR 0)
    match p1.1.err with
    | some _ => .ret ((none, some (.errorf ("Could not open IP (" ++ ip_node ++ ")"))), p1.2)
    | none =>
      let ip_fd := p1.1.ret
      let p2 := sys os p1.2 (.osOpenFile dev_node .O_RDWR 0)
      match p2.1.err with
      | some _ =>
        let w1 := (sys os p2.2 (.unixClose ip_fd)).2
        .ret ((none, some (.errorf ("Could not open TUN (" ++ dev_node ++ ")"))), w1)
      | none =>
        let fd := p2.1.ret
        let l := newPPALoop os fd 128 0 0 p2.2
        match l.1 with
        | .error e =>
          let w1 := (sys os l.2 (.unixClose ip_fd)).2
          let w2 := (sys os w1 (.fileClose fd)).2
          .ret ((none, some (.errno e)), w2)
        | .ok ppa => plumb os mtu ip_fd fd ppa l.2

/-! ## Observations on a run -/

/-- The calls issued between world `w` and a later world `w1`. -/
def issued (w w1 : World) : List Syscall := w1.trace.drop w.trace.length

/-- The value a Go call returned, when it returned. -/
def Exec.val? {α : Type} : Exec α → Option α
  | .ret a => some a
  | _ => none

/-- The receive `Read` issues on handle `tun`: a `Getmsg` on the transport
descriptor whose data buffer is `buf[offset:]`. -/
def readCall (tun : NativeTun) (buf : List UInt8) (offset : Int) : OSCall :=
  .Getmsg (Fd tun.tunFile) (buf.drop offset.toNat)

/-- The mux-id query `Close` issues first on handle `tun`. -/
def queryCall (tun : NativeTun) : OSCall := .IoctlGetIPMuxID tun.ip_fd tun.name

/-- The unlink `Close` issues second: it unlinks the id the query answered in
world `w`. -/
def unlinkCall (os : StubOS) (tun : NativeTun) (w : World) : OSCall :=
  .IoctlPunlink tun.ip_fd (sys os w (queryCall tun)).1.ret

/-- The steps of `CreateTUN` at which an OS primitive can fail. -/
inductive Step where
  | openIP
  | openTUN
  | newPPA
  | openSecondTUN
  | pushIP
  | unitSelect
  | plink
  | setMuxID
deriving DecidableEq, Repr

/-- The step of `CreateTUN` a primitive call belongs to; closes and the
best-effort unlink are not steps. -/
def stepOf : OSCall → Option Step
  | .unixOpen path _ _ => if path = "/dev/udp" then some .openIP else some .openSecondTUN
  | .osOpenFile _ _ _ => some .openTUN
  | .IoctlTunNewPPA _ _ => some .newPPA
  | .IoctlSetString _ _ _ => some .pushIP
  | .IoctlSetPointerInt _ _ _ => some .unitSelect
  | .IoctlPlink _ _ => some .plink
  | .IoctlSetIPMuxID _ _ _ => some .setMuxID
  | _ => none

/-- The logged call `ev` is step `s` failing: the call belongs to `s` and was
answered with an error; for the new-PPA probe the conflict answer EEXIST does
not count, since it only makes the loop try the next unit. -/
def Step.failedAt (s : Step) (ev : Syscall) : Bool :=
  stepOf ev.call == some s && ev.resp.err.isSome &&
    !(s == .newPPA && ev.resp.err == some EEXIST)

/-- Descriptors handed out by the successful opens among the calls `evs`. -/
def openedFds (evs : List Syscall) : List Int :=
  evs.filterMap fun ev =>
    match ev.call with
    | .unixOpen _ _ _ => if ev.resp.err.isNone then some ev.resp.ret else none
    | .osOpenFile _ _ _ => if ev.resp.err.isNone then some ev.resp.ret else none
    | _ => none

/-- Descriptors passed to a close among the calls `evs`, one entry per close. -/
def closedFds (evs : List Syscall) : List Int :=
  evs.filterMap fun ev =>
    match ev.call with
    | .unixClose fd => some fd
    | .fileClose fd => some fd
    | _ => none

/-- The world a run ends in; the starting world when the run did not return. -/
def endWorld {α : Type} (x : Exec (α × World)) (w : World) : World :=
  match x with
  | .ret a => a.2
  | _ => w

/-- A stub that succeeds at every call, in the way Unix calls succeed: no
error, and a non-negative integer result (a descriptor, a unit number, a mux
id). -/
def Succeeds (os : StubOS) : Prop :=
  ∀ (h : List Syscall) (c : OSCall), (os h c).err = none ∧ 0 ≤ (os h c).ret

/-- The call is a new-PPA probe. -/
def OSCall.isProbe : OSCall → Bool
  | .IoctlTunNewPPA _ _ => true
  | _ => false

/-! ## Stub instances used for concrete runs -/

/-- A stub that succeeds at every call and hands out a fresh number each time
(the position of the call in the log, shifted past the standard descriptors). -/
def stubOK : StubOS := fun h _ => ⟨h.length + 3, [], none⟩

/-- A stub in which units 0 to 127 are all taken: every new-PPA probe answers
`(-1, EEXIST)`; every other call succeeds as in `stubOK`. -/
def stubAllTaken : StubOS := fun h c =>
  match c with
  | .IoctlTunNewPPA _ _ => ⟨-1, [], some EEXIST⟩
  | _ => ⟨h.length + 3, [], none⟩

/-- A stub for transport I/O: `Getmsg` delivers the three bytes `7, 8, 9`,
every call succeeds. -/
def stubReceive : StubOS := fun h c =>
  match c with
  | .Getmsg _ _ => ⟨0, [7, 8, 9], none⟩
  | _ => ⟨h.length + 3, [], none⟩

/-- A stub in which the mux-id query fails with errno 22. -/
def stubQueryFails : StubOS := fun h c =>
  match c with
  | .IoctlGetIPMuxID _ _ => ⟨-1, [], some 22⟩
  | _ => ⟨h.length + 3, [], none⟩

/-- A stub in which pushing the `ip` module fails with errno 22 and every
other call succeeds. -/
def stubPushFails : StubOS := fun h c =>
  match c with
  | .IoctlSetString _ _ _ => ⟨-1, [], some 22⟩
  | _ => ⟨h.length + 3, [], none⟩

/-- A stub in which units 0 and 1 are taken: the probe answers `(-1, EEXIST)`
for them and hands out the requested unit otherwise; every other call
succeeds as in `stubOK`. -/
def stubTwoTaken : StubOS := fun h c =>
  match c with
  | .IoctlTunNewPPA _ t => if t < 2 then ⟨-1, [], some EEXIST⟩ else ⟨t, [], none⟩
  | _ => ⟨h.length + 3, [], none⟩

/-- A stub in which every call belonging to step `s` fails with errno 22 and
every other call succeeds. -/
def stubFails (s : Step) : StubOS := fun h c =>
  if stepOf c = some s then ⟨-1, [], some 22⟩ else ⟨h.length + 3, [], none⟩

/-- A world with the three standard descriptors open and an empty log. -/
def world0 : World := ⟨[0, 1, 2], []⟩

/-- A live handle as `CreateTUN` builds it: transport descriptor 4, control
descriptor 3, interface `tun0`, `EventUp` queued. -/
def tunLive : NativeTun :=
  { tunFile := some 4, ip_fd := 3, name := "tun0", mtu := 1500,
    events := some ⟨[Event.EventUp], 10, false⟩, errors := some ⟨[], 1, false⟩ }

/-- The handle `tunLive` with one I/O error (errno 5) pending on the error queue. -/
def tunPending : NativeTun :=
  { tunLive with errors := some ⟨[some (GoError.errno 5)], 1, false⟩ }

end Tun

namespace Ipc

open Tun (Chan Exec GoError error)

/-! ## `ipc/uapi_illumos.go` -/

/-- A connection (`net.Conn`) handed out by the underlying listener. -/
abbrev Conn := Nat

/-- What one call of the underlying `listener.Accept()` returns. -/
inductive AcceptResult where
  | conn (c : Conn)
  | err (e : GoError)
deriving DecidableEq, Repr

/-- Where the worker goroutine of `UAPIListen` stands (lines 63 to 72). -/
inductive Pc where
  /-- At the top of the `for` loop, about to call `l.listener.Accept()`. -/
  | callAccept
  /-- Inside `l.listener.Accept()`, until the listener has something to return. -/
  | inAccept
  /-- At `l.connNew <- conn`, holding the accepted connection. -/
  | sendConn (c : Conn)
  /-- At `l.connErr <- err`. -/
  | sendErr (e : GoError)
  /-- After `break`: the goroutine has ended. -/
  | done
  /-- The goroutine panicked. -/
  | panicked
deriving DecidableEq, Repr

/-- The struct `UAPIListener` together with the worker started by `UAPIListen`
and the observations made on it.  `pending` stands for the underlying
listener: the results its `Accept` will hand out, in order (inbound connection
attempts waiting in the socket backlog, or an accept error). -/
structure UAPIListener where
  connNew : Chan Conn
  connErr : Chan error
  pending : List AcceptResult
  pc : Pc
  /-- Number of times the worker has entered `l.listener.Accept()`. -/
  acceptCalls : Nat
  /-- Connections the underlying listener has handed to the worker, in order. -/
  accepted : List Conn
deriving DecidableEq, Repr

/-- The function `UAPIListen`: `fileListener` is the error of
`net.FileListener(file)` (`none` when it succeeds).  On success the adapter
has two empty capacity-1 channels and its worker stands at the top of the
loop. -/
def UAPIListen (fileListener : error) : Option UAPIListener × error :=
  match fileListener with
  | some e => (none, some e)
  | none =>
    (some { connNew := Chan.make 1, connErr := Chan.make 1, pending := [],
            pc := .callAccept, acceptCalls := 0, accepted := [] }, none)

/-- One step of the worker goroutine; `none` when it cannot move (blocked in
`Accept`, blocked on a full channel, or ended). -/
def workerStep (l : UAPIListener) : Option UAPIListener :=
  match l.pc with
  | .callAccept => some { l with pc := .inAccept, acceptCalls := l.acceptCalls + 1 }
  | .inAccept =>
    match l.pending with
    | [] => none
    | .conn c :: rest =>
      some { l with pending := rest, pc := .sendConn c, accepted := l.accepted ++ [c] }
    | .err e :: rest => some { l with pending := rest, pc := .sendErr e }
  | .sendConn c =>
    match Chan.send (some l.connNew) c with
    | .ret ch => some { l with connNew := ch, pc := .callAccept }
    | .panic _ => some { l with pc := .panicked }
    | .block => none
  | .sendErr e =>
    match Chan.send (some l.connErr) (some e) with
    | .ret ch => some { l with connErr := ch, pc := .done }
    | .panic _ => some { l with pc := .panicked }
    | .block => none
  | .done => none
  | .panicked => none

/-- What can happen in a run in which the consumer never calls `Accept`: the
outside world makes the underlying listener ready with one more result, or
the worker is scheduled. -/
inductive Action where
  | inbound (r : AcceptResult)
  | worker
deriving DecidableEq, Repr

/-- Effect of one action; scheduling a worker that cannot move changes nothing. -/
def act (l : UAPIListener) : Action → UAPIListener
  | .inbound r => { l with pending := l.pending ++ [r] }
  | .worker => (workerStep l).getD l

/-- The adapter after the actions `as`, in order. -/
def run (l : UAPIListener) (as : List Action) : UAPIListener := as.foldl act l

/-- The accepted connections the adapter holds and has not handed to a
consumer: those buffered in `connNew`, and the one the worker is trying to
deposit. -/
def held (l : UAPIListener) : List Conn :=
  l.connNew.buf ++ (match l.pc with
    | .sendConn c => [c]
    | _ => [])

/-- The adapter right after a successful `UAPIListen`. -/
def fresh : UAPIListener :=
  { connNew := Chan.make 1, connErr := Chan.make 1, pending := [],
    pc := .callAccept, acceptCalls := 0, accepted := [] }

/-- A run with two inbound connections `1` and `2` and no `Accept`: the worker
enters accept, the first connection arrives and is deposited, the worker
loops, the second arrives, and the worker is scheduled three more times. -/
def twoInbound : List Action :=
  [.worker, .inbound (.conn 1), .worker, .worker, .worker, .inbound (.conn 2),
   .worker, .worker, .worker]

/-- The invariant of runs without `Accept`, by worker position. -/
def Inv (l : UAPIListener) : Prop :=
  l.connNew.cap = 1 ∧ l.connNew.closed = false ∧ l.connNew.buf.length ≤ 1 ∧
  l.accepted = held l ∧
  match l.pc with
  | .callAccept => l.acceptCalls = l.connNew.buf.length
  | .inAccept => l.acceptCalls = l.connNew.buf.length + 1
  | .sendConn _ => l.acceptCalls = l.connNew.buf.length + 1
  | _ => l.acceptCalls ≤ l.connNew.buf.length + 1

end Ipc

namespace Tun

/-! ## Theorems -/

theorem sliceFrom_of_valid (buf : List UInt8) (offset : Int)
    (h : 0 ≤ offset ∧ offset ≤ buf.length) :
    sliceFrom buf offset = some (buf.drop offset.toNat) := by
  simp [sliceFrom, h]

/-- C5: a name other than "tun" is rejected with the naming error and no
handle, and the world (descriptor table and call log) is untouched. -/
theorem CreateTUN_rejects_other_name (os : StubOS) (name : String) (mtu : Int) (w : World)
    (h : name ≠ "tun") :
    CreateTUN os name mtu w
      = .ret ((none, some (.errorf "Interface name must be 'tun'")), w) := by
  simp [CreateTUN, h]

theorem CreateTUN_rejects_other_name_witness :
    "tun0" ≠ "tun" ∧
    CreateTUN stubOK "tun0" 1500 world0
      = .ret ((none, some (.errorf "Interface name must be 'tun'")), world0) :=
  ⟨by decide, CreateTUN_rejects_other_name stubOK "tun0" 1500 world0 (by decide)⟩

theorem splice_facts (pre rd rest : List UInt8) :
    ((pre ++ (rd ++ rest)).drop pre.length).take rd.length = rd ∧
    (pre ++ (rd ++ rest)).drop (pre.length + rd.length) = rest ∧
    (pre ++ (rd ++ rest)).take pre.length = pre := by
  refine ⟨by simp, ?_, by simp⟩
  rw [← List.drop_drop, List.drop_left, List.drop_left]

/-- C7: with a valid offset, `Read` on a handle with a pending error `e`
returns `(0, e)`, pops `e` from the error queue, issues no call and leaves
`buf` alone.  On a handle whose error queue is empty (an open channel with
nothing buffered, or nil) it issues exactly one `Getmsg` on the transport
descriptor with `buf[offset:]` as its data buffer.  When that receive fails
the result is `(0, err)` and `buf` is as before.  When it succeeds the result
is `(n, nil)` with `n` the number of bytes delivered, and afterwards `buf` has
its old length, its first `offset` bytes are untouched, and the `n` bytes from
index `offset` on are the bytes delivered.  The handle, error queue included,
stays as it was. -/
theorem Read_spec (os : StubOS) (tun : NativeTun) (buf : List UInt8) (offset : Int)
    (w : World) (hoff : 0 ≤ offset ∧ offset ≤ buf.length) :
    (∀ e rest cap closed, tun.errors = some ⟨e :: rest, cap, closed⟩ →
      tun.Read os buf offset w
        = .ret ((0, e), buf, { tun with errors := some ⟨rest, cap, closed⟩ }, w)) ∧
    ((tun.errors = none ∨ ∃ cap, tun.errors = some ⟨[], cap, false⟩) →
      (sys os w (readCall tun buf offset)).2
        = ⟨w.openFds,
           w.trace ++ [⟨.Getmsg (Fd tun.tunFile) (buf.drop offset.toNat),
             os w.trace (.Getmsg (Fd tun.tunFile) (buf.drop offset.toNat))⟩]⟩ ∧
      (∀ e, (sys os w (readCall tun buf offset)).1.err = some e →
        tun.Read os buf offset w
          = .ret ((0, some (.errno e)), buf, tun, (sys os w (readCall tun buf offset)).2)) ∧
      ((sys os w (readCall tun buf offset)).1.err = none →
        ∃ (read out : List UInt8),
          read = (sys os w (readCall tun buf offset)).1.data.take (buf.length - offset.toNat) ∧
          tun.Read os buf offset w
            = .ret (((read.length : Int), none), out, tun,
                (sys os w (readCall tun buf offset)).2) ∧
          out.length = buf.length ∧
          out.take offset.toNat = buf.take offset.toNat ∧
          (out.drop offset.toNat).take read.length = read ∧
          out.drop (offset.toNat + read.length) = buf.drop (offset.toNat + read.length))) := by
  have hle : offset.toNat ≤ buf.length := by omega
  refine ⟨?_, ?_⟩
  · intro e rest cap closed he
    simp [NativeTun.Read, he]
  · intro he
    have hread : tun.Read os buf offset w
        = (match (sys os w (readCall tun buf offset)).1.err with
            | some e => .ret ((0, some (.errno e)), buf, tun,
                (sys os w (readCall tun buf offset)).2)
            | none => .ret
                ((((delivered (buf.drop offset.toNat)
                    (sys os w (readCall tun buf offset)).1.data).length : Int), none),
                 buf.take offset.toNat ++
                   recvInto (buf.drop offset.toNat) (sys os w (readCall tun buf offset)).1.data,
                 tun, (sys os w (readCall tun buf offset)).2)) := by
      rcases he with he | ⟨cap, he⟩ <;>
        simp only [NativeTun.Read, he, sliceFrom_of_valid buf offset hoff, readCall]
    refine ⟨by simp [sys, effect, readCall], ?_, ?_⟩
    · intro e hr
      rw [hread]
      simp only [hr]
    · intro hr
      generalize hdata : (sys os w (readCall tun buf offset)).1.data = data at hread
      have hlen : (data.take (buf.length - offset.toNat)).length ≤ buf.length - offset.toNat := by
        simp
      have hpre : (buf.take offset.toNat).length = offset.toNat := by simp [hle]
      have hrd : delivered (buf.drop offset.toNat) data
          = data.take (buf.length - offset.toNat) := by
        simp [delivered]
      have hrest : (buf.drop offset.toNat).drop (data.take (buf.length - offset.toNat)).length
          = buf.drop (offset.toNat + (data.take (buf.length - offset.toNat)).length) := by
        rw [List.drop_drop]
      obtain ⟨f1, f2, f3⟩ := splice_facts (buf.take offset.toNat)
        (data.take (buf.length - offset.toNat))
        ((buf.drop offset.toNat).drop (data.take (buf.length - offset.toNat)).length)
      rw [hpre] at f1 f2 f3
      refine ⟨data.take (buf.length - offset.toNat),
        buf.take offset.toNat ++ (data.take (buf.length - offset.toNat) ++
          (buf.drop offset.toNat).drop (data.take (buf.length - offset.toNat)).length),
        rfl, ?_, ?_, f3, f1, ?_⟩
      · rw [hread]
        simp only [hr, recvInto, hrd]
      · simp only [List.length_append, List.length_take, List.length_drop]
        omega
      · rw [f2, hrest]

theorem Read_spec_witness :
    ((0 : Int) ≤ 1 ∧ (1 : Int) ≤ ([1, 2, 3, 4] : List UInt8).length) ∧
    tunPending.Read stubReceive [1, 2, 3, 4] 1 world0
      = .ret ((0, some (.errno 5)), [1, 2, 3, 4], tunLive, world0) ∧
    (sys stubReceive world0 (readCall tunLive [1, 2, 3, 4] 1)).2
      = ⟨[0, 1, 2], [⟨.Getmsg 4 [2, 3, 4], ⟨0, [7, 8, 9], none⟩⟩]⟩ ∧
    tunLive.Read stubReceive [1, 2, 3, 4] 1 world0
      = .ret ((3, none), [1, 7, 8, 9], tunLive,
          ⟨[0, 1, 2], [⟨.Getmsg 4 [2, 3, 4], ⟨0, [7, 8, 9], none⟩⟩]⟩) :=
  ⟨by decide,
   (Read_spec stubReceive tunPending [1, 2, 3, 4] 1 world0 (by decide)).1 _ _ _ _ rfl,
   ((Read_spec stubReceive tunLive [1, 2, 3, 4] 1 world0 (by decide)).2 (Or.inr ⟨1, rfl⟩)).1,
   by decide⟩

/-- C8: with `0 ≤ offset ≤ len(buf)`, `Write` issues exactly one `Putmsg` on
the transport descriptor carrying exactly `buf[offset:]`; when it succeeds the
result is `(len(buf), nil)`, which exceeds the number of bytes sent by exactly
`offset`; when it fails the result is `(0, err)`. -/
theorem Write_spec (os : StubOS) (tun : NativeTun) (buf : List UInt8) (offset : Int)
    (w : World) (hoff : 0 ≤ offset ∧ offset ≤ buf.length) :
    tun.Write os buf offset w
      = .ret ((if (os w.trace (.Putmsg (Fd tun.tunFile) (buf.drop offset.toNat) 0)).err = none
                then (buf.length : Int) else 0,
               (os w.trace (.Putmsg (Fd tun.tunFile) (buf.drop offset.toNat) 0)).err.map
                 GoError.errno),
              ⟨w.openFds,
               w.trace ++ [⟨.Putmsg (Fd tun.tunFile) (buf.drop offset.toNat) 0,
                 os w.trace (.Putmsg (Fd tun.tunFile) (buf.drop offset.toNat) 0)⟩]⟩) ∧
    (buf.length : Int) - ((buf.drop offset.toNat).length : Int) = offset := by
  refine ⟨?_, ?_⟩
  · simp only [NativeTun.Write, sliceFrom_of_valid buf offset hoff, sys, effect]
    cases hr : (os w.trace (.Putmsg (Fd tun.tunFile) (buf.drop offset.toNat) 0)).err <;> simp
  · have h1 : offset.toNat ≤ buf.length := by omega
    simp only [List.length_drop]
    omega

theorem Write_spec_witness :
    ((0 : Int) ≤ 1 ∧ (1 : Int) ≤ ([1, 2, 3, 4] : List UInt8).length) ∧
    tunLive.Write stubOK [1, 2, 3, 4] 1 world0
      = .ret ((4, none), ⟨[0, 1, 2], [⟨.Putmsg 4 [2, 3, 4] 0, ⟨3, [], none⟩⟩]⟩) :=
  ⟨by decide, (Write_spec stubOK tunLive [1, 2, 3, 4] 1 world0 (by decide)).1⟩

/-- C9: on a handle whose control descriptor is valid (`ip_fd ≥ 0`), `Close`
first queries the mux id by name, then unlinks the id it got, and only then
closes the control descriptor, before it goes on to the transport file and
the event queue.  If the query fails, or the unlink fails, `Close` returns
that error with the handle unchanged, and the world is the one right after the
failing call: nothing else was issued and no descriptor was closed. -/
theorem Close_unlinks_before_closing (os : StubOS) (tun : NativeTun) (w : World)
    (hfd : 0 ≤ tun.ip_fd) :
    (∀ e, (sys os w (queryCall tun)).1.err = some e →
      tun.Close os w = .ret (some (.errno e), tun, (sys os w (queryCall tun)).2) ∧
      (sys os w (queryCall tun)).2.openFds = w.openFds) ∧
    ((sys os w (queryCall tun)).1.err = none →
      ∀ e, (sys os (sys os w (queryCall tun)).2 (unlinkCall os tun w)).1.err = some e →
      tun.Close os w
        = .ret (some (.errno e), tun,
            (sys os (sys os w (queryCall tun)).2 (unlinkCall os tun w)).2) ∧
      (sys os (sys os w (queryCall tun)).2 (unlinkCall os tun w)).2.openFds = w.openFds) ∧
    ((sys os w (queryCall tun)).1.err = none →
      (sys os (sys os w (queryCall tun)).2 (unlinkCall os tun w)).1.err = none →
      tun.Close os w
        = NativeTun.closeTransport os { tun with ip_fd := -1 }
            (sys os (sys os (sys os w (queryCall tun)).2 (unlinkCall os tun w)).2
              (.unixClose tun.ip_fd)).2) := by
  refine ⟨?_, ?_, ?_⟩
  · intro e he
    simp only [queryCall, sys] at he
    simp [NativeTun.Close, hfd, he, queryCall, sys, effect]
  · intro h1 e he
    simp only [queryCall, unlinkCall, sys] at h1 he
    simp [NativeTun.Close, hfd, he, h1, queryCall, unlinkCall, sys, effect]
  · intro h1 h2
    simp only [queryCall, unlinkCall, sys] at h1 h2
    simp [NativeTun.Close, hfd, h1, h2, queryCall, unlinkCall, sys, effect]

theorem Close_unlinks_before_closing_witness :
    (0 : Int) ≤ tunLive.ip_fd ∧
    tunLive.Close stubQueryFails world0
      = .ret (some (.errno 22), tunLive,
          ⟨[0, 1, 2], [⟨.IoctlGetIPMuxID 3 "tun0", ⟨-1, [], some 22⟩⟩]⟩) :=
  ⟨by decide,
   ((Close_unlinks_before_closing stubQueryFails tunLive world0 (by decide)).1 22 rfl).1⟩

/-- Once `Close` has returned nil on a handle whose event channel is not nil,
the handle it leaves behind still carries that channel, now closed, so any
further `Close` panics whatever the OS does. -/
theorem Close_again_panics (os os2 : StubOS) (tun tun1 : NativeTun) (w w1 w2 : World)
    (hev : tun.events ≠ none) (h : tun.Close os w = .ret (none, tun1, w1)) :
    tun1.Close os2 w2 = .panic "close of closed channel" := by
  have key : ∀ (t t1 : NativeTun) (v v1 : World), t.events ≠ none →
      NativeTun.closeTransport os t v = .ret (none, t1, v1) →
      t1.ip_fd = t.ip_fd ∧ t1.tunFile = none ∧
        ∃ ch, t1.events = some ch ∧ ch.closed = true := by
    intro t t1 v v1 ht hc
    obtain ⟨ch, hch⟩ : ∃ ch, t.events = some ch := by
      cases h : t.events with
      | none => exact absurd h ht
      | some ch => exact ⟨ch, rfl⟩
    cases htf : t.tunFile <;> by_cases hcl : ch.closed = true <;>
      simp [NativeTun.closeTransport, htf, hch, Chan.close, hcl] at hc <;>
      obtain ⟨rfl, -⟩ := hc <;> simp
  have fin : ∀ t1 : NativeTun, t1.ip_fd = -1 → t1.tunFile = none →
      (∃ ch, t1.events = some ch ∧ ch.closed = true) →
      t1.Close os2 w2 = .panic "close of closed channel" := by
    intro t1 h1 h2 h3
    obtain ⟨ch, h3, h4⟩ := h3
    simp [NativeTun.Close, NativeTun.closeTransport, h1, h2, h3, h4, Chan.close]
  by_cases hfd : 0 ≤ tun.ip_fd
  · simp only [NativeTun.Close, hfd, if_true] at h
    split at h
    · simp at h
    · split at h
      · simp at h
      · obtain ⟨h1, h2, h3⟩ := key { tun with ip_fd := -1 } _ _ _ hev h
        exact fin tun1 h1 h2 h3
  · simp only [NativeTun.Close, hfd, if_false] at h
    obtain ⟨h1, h2, h3⟩ := key _ _ _ _ hev h
    -- the control descriptor was already invalid: it is negative, and the
    -- second call skips the query as well
    obtain ⟨ch, h3, h4⟩ := h3
    have hneg : ¬ 0 ≤ tun1.ip_fd := by rw [h1]; exact hfd
    simp [NativeTun.Close, NativeTun.closeTransport, hneg, h2, h3, h4, Chan.close]

/-- C3 (the code fails the claim): create a device on the all-success stub,
close it (the first `Close` returns nil), close it again: the second `Close`
does not return nil, it panics with "close of closed channel". -/
theorem Close_twice_panics :
    ∃ tun w1 tun1 w2,
      CreateTUN stubOK "tun" 1500 world0 = .ret ((some tun, none), w1) ∧
      tun.Close stubOK w1 = .ret (none, tun1, w2) ∧
      tun1.Close stubOK w2 = .panic "close of closed channel" :=
  ⟨_, _, _, _, rfl, rfl, rfl⟩

set_option maxRecDepth 100000 in
/-- C2 (the code fails the claim): when all 128 probes answer EEXIST,
`CreateTUN` does not fail.  It returns a handle and a nil error, the handle is
named after the value the last failed probe left in `ppa` (here `-1`), both
descriptors stay open, and after probe 127 it goes on to open the second TUN
descriptor, push `ip`, select unit `-1`, link, and register `tun-1`. -/
theorem CreateTUN_exhausted_probe_goes_on :
    (CreateTUN stubAllTaken "tun" 1500 world0).val?.map
        (fun r => (r.1.1.map NativeTun.Name, r.1.2, r.2.openFds,
          (r.2.trace.drop 129).map Syscall.call))
      = some (some ("tun-1", none), none, [4, 3, 0, 1, 2],
          [.IoctlTunNewPPA 4 127, .unixOpen "/dev/tun" .O_RDWR 0,
           .IoctlSetString 133 .I_PUSH "ip", .IoctlSetPointerInt 133 .IF_UNITSEL (-1),
           .IoctlPlink 3 133, .unixClose 133, .IoctlSetIPMuxID 3 "tun-1" 136]) := by
  decide

/-! ### The descriptor table and the log -/

theorem erase_pair (a b : Int) (l : List Int) : ((a :: b :: l).erase b).erase a = l := by
  by_cases h : a = b
  · subst h; simp
  · have h1 : (a == b) = false := by simpa using h
    simp [List.erase_cons, h1]

theorem issued_append (w : World) (fds : List Int) (evs : List Syscall) :
    issued w ⟨fds, w.trace ++ evs⟩ = evs := by
  simp [issued]

theorem failedAt_of_ok (s : Step) (c : OSCall) (r : Response) (h : r.err = none) :
    s.failedAt ⟨c, r⟩ = false := by
  simp [Step.failedAt, h]

theorem failedAt_probe_conflict (s : Step) (fd t : Int) (r : Response)
    (h : r.err = some EEXIST) : s.failedAt ⟨.IoctlTunNewPPA fd t, r⟩ = false := by
  cases s <;> simp [Step.failedAt, stepOf, h]

theorem failedAt_close (s : Step) (fd : Int) (r : Response) :
    s.failedAt ⟨.unixClose fd, r⟩ = false := by
  simp [Step.failedAt, stepOf]

/-- What the probing loop does to the world: it only appends new-PPA probes to
the log, never touches the descriptor table, and when it is left without an
error none of its probes counts as a failed step. -/
theorem newPPALoop_world (os : StubOS) (fd : Int) :
    ∀ (n : Nat) (t p : Int) (w : World), ∃ evs,
      (newPPALoop os fd n t p w).2 = ⟨w.openFds, w.trace ++ evs⟩ ∧
      openedFds evs = [] ∧ closedFds evs = [] ∧
      ((∃ ppa, (newPPALoop os fd n t p w).1 = .ok ppa) →
        ∀ ev ∈ evs, ∀ s : Step, s.failedAt ev = false) := by
  intro n
  induction n with
  | zero =>
    intro t p w
    exact ⟨[], by simp [newPPALoop], rfl, rfl, by simp⟩
  | succ n ih =>
    intro t p w
    cases hr : (os w.trace (.IoctlTunNewPPA fd t)).err with
    | none =>
      refine ⟨[⟨.IoctlTunNewPPA fd t, os w.trace (.IoctlTunNewPPA fd t)⟩], ?_, ?_, ?_, ?_⟩
      · simp [newPPALoop, sys, hr, effect]
      · simp [openedFds]
      · simp [closedFds]
      · intro _ ev hev s
        simp only [List.mem_singleton] at hev
        subst hev
        exact failedAt_of_ok s _ _ hr
    | some e =>
      by_cases he : e = EEXIST
      · subst he
        obtain ⟨evs, h1, h2, h3, h4⟩ :=
          ih (t + 1) (os w.trace (.IoctlTunNewPPA fd t)).ret (sys os w (.IoctlTunNewPPA fd t)).2
        refine ⟨⟨.IoctlTunNewPPA fd t, os w.trace (.IoctlTunNewPPA fd t)⟩ :: evs, ?_, ?_, ?_, ?_⟩
        · simp only [newPPALoop, sys, hr, if_true] at h1 ⊢
          rw [h1]
          simp [effect]
        · simpa [openedFds] using h2
        · simpa [closedFds] using h3
        · intro hok ev hev s
          simp only [newPPALoop, sys, hr, if_true] at hok h4
          rcases List.mem_cons.mp hev with rfl | hmem
          · exact failedAt_probe_conflict s fd t _ hr
          · exact h4 hok ev hmem s
      · refine ⟨[⟨.IoctlTunNewPPA fd t, os w.trace (.IoctlTunNewPPA fd t)⟩], ?_, ?_, ?_, ?_⟩
        · simp [newPPALoop, sys, hr, he, effect]
        · simp [openedFds]
        · simp [closedFds]
        · intro hok
          simp [newPPALoop, sys, hr, he] at hok

theorem sys_spec (os : StubOS) (w : World) (c : OSCall) :
    (sys os w c).2 = ⟨effect w.openFds c (sys os w c).1, w.trace ++ [⟨c, (sys os w c).1⟩]⟩ :=
  rfl

/-- Rollback of two descriptors: `unix.Close(a)` then `file.Close()` on `b`. -/
theorem rollback2 (os : StubOS) (w : World) (a b : Int) :
    ∃ r1 r2, (sys os (sys os w (.unixClose a)).2 (.fileClose b)).2
      = ⟨(w.openFds.erase a).erase b,
         w.trace ++ [⟨.unixClose a, r1⟩, ⟨.fileClose b, r2⟩]⟩ :=
  ⟨(sys os w (.unixClose a)).1, (sys os (sys os w (.unixClose a)).2 (.fileClose b)).1,
    by simp [sys, effect]⟩

/-- Rollback of three descriptors: `unix.Close(a)`, `unix.Close(b)`, then
`file.Close()` on `c`. -/
theorem rollback3 (os : StubOS) (w : World) (a b c : Int) :
    ∃ r1 r2 r3,
      (sys os (sys os (sys os w (.unixClose a)).2 (.unixClose b)).2 (.fileClose c)).2
      = ⟨((w.openFds.erase a).erase b).erase c,
         w.trace ++ [⟨.unixClose a, r1⟩, ⟨.unixClose b, r2⟩, ⟨.fileClose c, r3⟩]⟩ :=
  ⟨(sys os w (.unixClose a)).1, (sys os (sys os w (.unixClose a)).2 (.unixClose b)).1,
    (sys os (sys os (sys os w (.unixClose a)).2 (.unixClose b)).2 (.fileClose c)).1,
    by simp [sys, effect]⟩

/-- The two ways `plumb` can end, seen from the world `w` it starts in.  Either
it returns an error and no handle, having closed `ip_fd`, `tunFd` and whatever
it opened itself; or it returns a handle and no error, and none of the calls
it issued counts as a failed step. -/
theorem plumb_cases (os : StubOS) (mtu ip_fd tunFd ppa : Int) (w : World) :
    (∃ err w1, plumb os mtu ip_fd tunFd ppa w = .ret ((none, some err), w1) ∧
      w1.openFds = (w.openFds.erase ip_fd).erase tunFd ∧
      w1.trace = w.trace ++ issued w w1 ∧
      closedFds (issued w w1) = openedFds (issued w w1) ++ [ip_fd, tunFd]) ∨
    (∃ tun w1, plumb os mtu ip_fd tunFd ppa w = .ret ((some tun, none), w1) ∧
      w1.openFds = w.openFds ∧
      w1.trace = w.trace ++ issued w w1 ∧
      openedFds (issued w w1) = closedFds (issued w w1) ∧
      ∀ ev ∈ issued w w1, ∀ s : Step, s.failedAt ev = false) := by
  simp only [plumb]
  have hw5 := sys_spec os w (.unixOpen "/dev/tun" .O_RDWR 0)
  generalize sys os w (.unixOpen "/dev/tun" .O_RDWR 0) = p5 at hw5 ⊢
  cases h5 : p5.1.err with
  | some e5 =>
    left
    obtain ⟨r1, r2, hrb⟩ := rollback2 os p5.2 ip_fd tunFd
    simp only [hrb]
    refine ⟨_, _, rfl, ?_, ?_, ?_⟩ <;>
      simp [hw5, effect, h5, issued, closedFds, openedFds]
  | none =>
    simp only []
    have hw6 := sys_spec os p5.2 (.IoctlSetString p5.1.ret .I_PUSH "ip")
    generalize sys os p5.2 (.IoctlSetString p5.1.ret .I_PUSH "ip") = p6 at hw6 ⊢
    cases h6 : p6.1.err with
    | some e6 =>
      left
      obtain ⟨r1, r2, r3, hrb⟩ := rollback3 os p6.2 p5.1.ret ip_fd tunFd
      simp only [hrb]
      refine ⟨_, _, rfl, ?_, ?_, ?_⟩ <;>
        simp [hw6, hw5, effect, h5, issued, closedFds, openedFds]
    | none =>
      simp only []
      have hw7 := sys_spec os p6.2 (.IoctlSetPointerInt p5.1.ret .IF_UNITSEL ppa)
      generalize sys os p6.2 (.IoctlSetPointerInt p5.1.ret .IF_UNITSEL ppa) = p7 at hw7 ⊢
      cases h7 : p7.1.err with
      | some e7 =>
        left
        obtain ⟨r1, r2, r3, hrb⟩ := rollback3 os p7.2 p5.1.ret ip_fd tunFd
        simp only [hrb]
        refine ⟨_, _, rfl, ?_, ?_, ?_⟩ <;>
          simp [hw7, hw6, hw5, effect, h5, issued, closedFds, openedFds]
      | none =>
        simp only []
        have hw8 := sys_spec os p7.2 (.IoctlPlink ip_fd p5.1.ret)
        generalize sys os p7.2 (.IoctlPlink ip_fd p5.1.ret) = p8 at hw8 ⊢
        cases h8 : p8.1.err with
        | some e8 =>
          left
          obtain ⟨r1, r2, r3, hrb⟩ := rollback3 os p8.2 p5.1.ret ip_fd tunFd
          simp only [hrb]
          refine ⟨_, _, rfl, ?_, ?_, ?_⟩ <;>
            simp [hw8, hw7, hw6, hw5, effect, h5, issued, closedFds, openedFds]
        | none =>
          simp only []
          have hw9 := sys_spec os p8.2 (.unixClose p5.1.ret)
          generalize sys os p8.2 (.unixClose p5.1.ret) = p9 at hw9 ⊢
          have hw10 := sys_spec os p9.2
            (.IoctlSetIPMuxID ip_fd ("tun" ++ toString ppa) p8.1.ret)
          generalize sys os p9.2
            (.IoctlSetIPMuxID ip_fd ("tun" ++ toString ppa) p8.1.ret) = p10 at hw10 ⊢
          cases h10 : p10.1.err with
          | some e10 =>
            left
            have hw11 := sys_spec os p10.2 (.IoctlPunlink ip_fd p8.1.ret)
            generalize sys os p10.2 (.IoctlPunlink ip_fd p8.1.ret) = p11 at hw11 ⊢
            obtain ⟨r1, r2, hrb⟩ := rollback2 os p11.2 ip_fd tunFd
            simp only [hrb]
            refine ⟨_, _, rfl, ?_, ?_, ?_⟩ <;>
              simp [hw11, hw10, hw9, hw8, hw7, hw6, hw5, effect, h5, issued, closedFds,
                openedFds]
          | none =>
            right
            simp only [Chan.send, Chan.make]
            refine ⟨_, _, rfl, ?_, ?_, ?_, ?_⟩
            · simp [hw10, hw9, hw8, hw7, hw6, hw5, effect, h5]
            · simp [hw10, hw9, hw8, hw7, hw6, hw5, issued]
            · simp [hw10, hw9, hw8, hw7, hw6, hw5, effect, h5, issued, closedFds, openedFds]
            · intro ev hev s
              simp [hw10, hw9, hw8, hw7, hw6, hw5, issued] at hev
              rcases hev with rfl | rfl | rfl | rfl | rfl | rfl
              · exact failedAt_of_ok s _ _ h5
              · exact failedAt_of_ok s _ _ h6
              · exact failedAt_of_ok s _ _ h7
              · exact failedAt_of_ok s _ _ h8
              · exact failedAt_close s _ _
              · exact failedAt_of_ok s _ _ h10

theorem openedFds_append (a b : List Syscall) :
    openedFds (a ++ b) = openedFds a ++ openedFds b := by
  simp [openedFds]

theorem closedFds_append (a b : List Syscall) :
    closedFds (a ++ b) = closedFds a ++ closedFds b := by
  simp [closedFds]

/-- The two ways `CreateTUN("tun", mtu)` can end.  Either it returns an error
and no handle, with the descriptor table back to what it was and the closes it
issued matching the opens that succeeded one for one; or it returns a handle
and no error, and none of the calls it issued counts as a failed step. -/
theorem CreateTUN_cases (os : StubOS) (mtu : Int) (w : World) :
    (∃ err w1, CreateTUN os "tun" mtu w = .ret ((none, some err), w1) ∧
      w1.openFds = w.openFds ∧
      (closedFds (issued w w1)).Perm (openedFds (issued w w1))) ∨
    (∃ tun w1, CreateTUN os "tun" mtu w = .ret ((some tun, none), w1) ∧
      ∀ ev ∈ issued w w1, ∀ s : Step, s.failedAt ev = false) := by
  simp only [CreateTUN, ne_eq, not_true_eq_false, if_false]
  have hw1 := sys_spec os w (.unixOpen "/dev/udp" .O_RDWR 0)
  generalize sys os w (.unixOpen "/dev/udp" .O_RDWR 0) = p1 at hw1 ⊢
  cases h1 : p1.1.err with
  | some e1 =>
    left
    simp only []
    refine ⟨_, _, rfl, ?_, ?_⟩ <;> simp [hw1, effect, h1, issued, closedFds, openedFds]
  | none =>
    simp only []
    have hw2 := sys_spec os p1.2 (.osOpenFile "/dev/tun" .O_RDWR 0)
    generalize sys os p1.2 (.osOpenFile "/dev/tun" .O_RDWR 0) = p2 at hw2 ⊢
    cases h2 : p2.1.err with
    | some e2 =>
      left
      simp only []
      have hw3 := sys_spec os p2.2 (.unixClose p1.1.ret)
      generalize sys os p2.2 (.unixClose p1.1.ret) = p3 at hw3 ⊢
      refine ⟨_, _, rfl, ?_, ?_⟩ <;>
        simp [hw3, hw2, hw1, effect, h1, h2, issued, closedFds, openedFds]
    | none =>
      simp only []
      obtain ⟨evs, hl, hop, hcl, hfail⟩ := newPPALoop_world os p2.1.ret 128 0 0 p2.2
      generalize newPPALoop os p2.1.ret 128 0 0 p2.2 = l at hl hfail ⊢
      have hfds : l.2.openFds = p2.1.ret :: p1.1.ret :: w.openFds := by
        simp [hl, hw2, hw1, effect, h1, h2]
      have htr : l.2.trace = w.trace ++
          (⟨.unixOpen "/dev/udp" .O_RDWR 0, p1.1⟩ ::
            ⟨.osOpenFile "/dev/tun" .O_RDWR 0, p2.1⟩ :: evs) := by
        simp [hl, hw2, hw1]
      cases hres : l.1 with
      | error e =>
        left
        simp only []
        obtain ⟨r1, r2, hrb⟩ := rollback2 os l.2 p1.1.ret p2.1.ret
        simp only [hrb]
        refine ⟨_, _, rfl, ?_, ?_⟩
        · simp only [hfds]
          exact erase_pair _ _ _
        · have hiss : issued w
              ⟨(l.2.openFds.erase p1.1.ret).erase p2.1.ret,
               l.2.trace ++ [⟨.unixClose p1.1.ret, r1⟩, ⟨.fileClose p2.1.ret, r2⟩]⟩
              = [⟨.unixOpen "/dev/udp" .O_RDWR 0, p1.1⟩,
                  ⟨.osOpenFile "/dev/tun" .O_RDWR 0, p2.1⟩] ++ evs ++
                [⟨.unixClose p1.1.ret, r1⟩, ⟨.fileClose p2.1.ret, r2⟩] := by
            simp [issued, htr]
          rw [hiss, closedFds_append, closedFds_append, openedFds_append, openedFds_append,
            hop, hcl]
          simp [closedFds, openedFds, h1, h2]
      | ok ppa =>
        simp only []
        rcases plumb_cases os mtu p1.1.ret p2.1.ret ppa l.2 with
          ⟨err, w1, hp, hfd1, htr1, hco⟩ | ⟨tun, w1, hp, hfd1, htr1, hco, hnf⟩
        · left
          refine ⟨err, w1, hp, ?_, ?_⟩
          · rw [hfd1, hfds]
            exact erase_pair _ _ _
          · generalize issued l.2 w1 = evs2 at htr1 hco
            have hiss : issued w w1 = ⟨.unixOpen "/dev/udp" .O_RDWR 0, p1.1⟩ ::
                ⟨.osOpenFile "/dev/tun" .O_RDWR 0, p2.1⟩ :: (evs ++ evs2) := by
              simp [issued, htr1, htr]
            have hiss2 : issued w w1 = [⟨.unixOpen "/dev/udp" .O_RDWR 0, p1.1⟩,
                ⟨.osOpenFile "/dev/tun" .O_RDWR 0, p2.1⟩] ++ evs ++ evs2 := by
              simp [hiss]
            rw [hiss2, closedFds_append, closedFds_append, openedFds_append, openedFds_append,
              hop, hcl, hco]
            have ho : openedFds [⟨.unixOpen "/dev/udp" .O_RDWR 0, p1.1⟩,
                ⟨.osOpenFile "/dev/tun" .O_RDWR 0, p2.1⟩] = [p1.1.ret, p2.1.ret] := by
              simp [openedFds, h1, h2]
            have hc : closedFds [⟨.unixOpen "/dev/udp" .O_RDWR 0, p1.1⟩,
                ⟨.osOpenFile "/dev/tun" .O_RDWR 0, p2.1⟩] = [] := by
              simp [closedFds]
            rw [ho, hc]
            simp only [List.nil_append, List.append_nil]
            exact List.perm_append_comm
        · right
          refine ⟨tun, w1, hp, ?_⟩
          generalize issued l.2 w1 = evs2 at htr1 hnf
          have hiss : issued w w1 = ⟨.unixOpen "/dev/udp" .O_RDWR 0, p1.1⟩ ::
              ⟨.osOpenFile "/dev/tun" .O_RDWR 0, p2.1⟩ :: (evs ++ evs2) := by
            simp [issued, htr1, htr]
          rw [hiss]
          intro ev hev s
          rcases List.mem_cons.mp hev with rfl | hev
          · exact failedAt_of_ok s _ _ h1
          rcases List.mem_cons.mp hev with rfl | hev
          · exact failedAt_of_ok s _ _ h2
          rcases List.mem_append.mp hev with hev | hev
          · exact hfail ⟨ppa, hres⟩ ev hev s
          · exact hnf ev hev s

/-- C1: whichever step of `CreateTUN("tun", mtu)` fails (open of the IP
device, open of the TUN device, a new-PPA probe with a non-conflict error,
open of the second TUN descriptor, push of `ip`, unit select, link, mux-id
registration), on whatever stub OS and from whatever world: the call returns
an error and no handle, the set of open descriptors is what it was before the
call, and the closes issued during the call match the descriptors opened
during the call one for one. -/
theorem CreateTUN_failure_rolls_back (os : StubOS) (mtu : Int) (w : World) (s : Step)
    (hfail : ∃ ev ∈ issued w (endWorld (CreateTUN os "tun" mtu w) w), s.failedAt ev = true) :
    ∃ err w1, CreateTUN os "tun" mtu w = .ret ((none, some err), w1) ∧
      w1.openFds = w.openFds ∧
      (closedFds (issued w w1)).Perm (openedFds (issued w w1)) := by
  rcases CreateTUN_cases os mtu w with h | ⟨tun, w1, hrun, hnf⟩
  · exact h
  · exfalso
    obtain ⟨ev, hev, hs⟩ := hfail
    rw [hrun] at hev
    have := hnf ev hev s
    rw [this] at hs
    exact Bool.false_ne_true hs

theorem CreateTUN_failure_rolls_back_witness :
    (∃ ev ∈ issued world0 (endWorld (CreateTUN stubPushFails "tun" 1500 world0) world0),
      Step.pushIP.failedAt ev = true) ∧
    ∃ err w1, CreateTUN stubPushFails "tun" 1500 world0 = .ret ((none, some err), w1) ∧
      w1.openFds = world0.openFds ∧
      (closedFds (issued world0 w1)).Perm (openedFds (issued world0 w1)) :=
  ⟨by decide, CreateTUN_failure_rolls_back stubPushFails 1500 world0 .pushIP (by decide)⟩

/-- Each of the eight steps can be the one that fails: on the stub that fails
step `s`, the log of `CreateTUN("tun", 1500)` shows `s` failing. -/
theorem every_step_can_fail (s : Step) :
    ∃ ev ∈ issued world0 (endWorld (CreateTUN (stubFails s) "tun" 1500 world0) world0),
      s.failedAt ev = true := by
  cases s <;> decide

/-! ### The success path -/

theorem newPPALoop_ok (os : StubOS) (fd : Int) (n : Nat) (t p : Int) (w : World)
    (h : (sys os w (.IoctlTunNewPPA fd t)).1.err = none) :
    newPPALoop os fd (n + 1) t p w
      = (.ok (sys os w (.IoctlTunNewPPA fd t)).1.ret, (sys os w (.IoctlTunNewPPA fd t)).2) := by
  simp only [newPPALoop, h]

theorem newPPALoop_conflict (os : StubOS) (fd : Int) (n : Nat) (t p : Int) (w : World)
    (h : (sys os w (.IoctlTunNewPPA fd t)).1.err = some EEXIST) :
    newPPALoop os fd (n + 1) t p w
      = newPPALoop os fd n (t + 1) (sys os w (.IoctlTunNewPPA fd t)).1.ret
          (sys os w (.IoctlTunNewPPA fd t)).2 := by
  simp only [newPPALoop, h, if_true]

/-- When every call other than the probes succeeds, `plumb` returns the handle
and issues exactly six calls: open of the second TUN descriptor, push of `ip`,
unit select with `ppa`, link, close of the second descriptor, registration of
the mux id under the derived name. -/
theorem plumb_ok (os : StubOS) (mtu ip_fd tunFd ppa : Int) (w : World)
    (hrest : ∀ h c, OSCall.isProbe c = false → (os h c).err = none) :
    ∃ (if_fd muxid : Int) (evs : List Syscall),
      plumb os mtu ip_fd tunFd ppa w
        = .ret ((some { tunFile := some tunFd, ip_fd := ip_fd,
                        name := "tun" ++ toString ppa, mtu := mtu,
                        events := some ⟨[Event.EventUp], 10, false⟩,
                        errors := some ⟨[], 1, false⟩ }, none),
                ⟨w.openFds, w.trace ++ evs⟩) ∧
      evs.map Syscall.call
        = [.unixOpen "/dev/tun" .O_RDWR 0, .IoctlSetString if_fd .I_PUSH "ip",
           .IoctlSetPointerInt if_fd .IF_UNITSEL ppa, .IoctlPlink ip_fd if_fd,
           .unixClose if_fd, .IoctlSetIPMuxID ip_fd ("tun" ++ toString ppa) muxid] := by
  simp only [plumb]
  have h5 : (sys os w (.unixOpen "/dev/tun" .O_RDWR 0)).1.err = none := hrest _ _ rfl
  have hw5 := sys_spec os w (.unixOpen "/dev/tun" .O_RDWR 0)
  generalize sys os w (.unixOpen "/dev/tun" .O_RDWR 0) = p5 at h5 hw5 ⊢
  have h6 : (sys os p5.2 (.IoctlSetString p5.1.ret .I_PUSH "ip")).1.err = none := hrest _ _ rfl
  have hw6 := sys_spec os p5.2 (.IoctlSetString p5.1.ret .I_PUSH "ip")
  generalize sys os p5.2 (.IoctlSetString p5.1.ret .I_PUSH "ip") = p6 at h6 hw6 ⊢
  have h7 : (sys os p6.2 (.IoctlSetPointerInt p5.1.ret .IF_UNITSEL ppa)).1.err = none :=
    hrest _ _ rfl
  have hw7 := sys_spec os p6.2 (.IoctlSetPointerInt p5.1.ret .IF_UNITSEL ppa)
  generalize sys os p6.2 (.IoctlSetPointerInt p5.1.ret .IF_UNITSEL ppa) = p7 at h7 hw7 ⊢
  have h8 : (sys os p7.2 (.IoctlPlink ip_fd p5.1.ret)).1.err = none := hrest _ _ rfl
  have hw8 := sys_spec os p7.2 (.IoctlPlink ip_fd p5.1.ret)
  generalize sys os p7.2 (.IoctlPlink ip_fd p5.1.ret) = p8 at h8 hw8 ⊢
  have hw9 := sys_spec os p8.2 (.unixClose p5.1.ret)
  generalize sys os p8.2 (.unixClose p5.1.ret) = p9 at hw9 ⊢
  have h10 : (sys os p9.2 (.IoctlSetIPMuxID ip_fd ("tun" ++ toString ppa) p8.1.ret)).1.err
      = none := hrest _ _ rfl
  have hw10 := sys_spec os p9.2 (.IoctlSetIPMuxID ip_fd ("tun" ++ toString ppa) p8.1.ret)
  generalize sys os p9.2 (.IoctlSetIPMuxID ip_fd ("tun" ++ toString ppa) p8.1.ret) = p10
    at h10 hw10 ⊢
  refine ⟨p5.1.ret, p8.1.ret,
    [⟨.unixOpen "/dev/tun" .O_RDWR 0, p5.1⟩, ⟨.IoctlSetString p5.1.ret .I_PUSH "ip", p6.1⟩,
     ⟨.IoctlSetPointerInt p5.1.ret .IF_UNITSEL ppa, p7.1⟩, ⟨.IoctlPlink ip_fd p5.1.ret, p8.1⟩,
     ⟨.unixClose p5.1.ret, p9.1⟩,
     ⟨.IoctlSetIPMuxID ip_fd ("tun" ++ toString ppa) p8.1.ret, p10.1⟩], ?_, ?_⟩
  · simp only [h5, h6, h7, h8, h10, Chan.send, Chan.make]
    simp [hw10, hw9, hw8, hw7, hw6, hw5, effect, h5]
  · simp

/-! ### Decimal rendering -/

theorem digitChar_isDigit (m : Nat) (h : m < 10) : (Nat.digitChar m).isDigit = true := by
  interval_cases m <;> decide

theorem toDigitsCore_digits (fuel : Nat) : ∀ (n : Nat) (ds : List Char),
    (∀ c ∈ ds, c.isDigit = true) → ∀ c ∈ Nat.toDigitsCore 10 fuel n ds, c.isDigit = true := by
  induction fuel with
  | zero => intro n ds h; simpa [Nat.toDigitsCore] using h
  | succ f ih =>
    intro n ds h
    have hd : (Nat.digitChar (n % 10)).isDigit = true :=
      digitChar_isDigit _ (Nat.mod_lt _ (by decide))
    have h2 : ∀ c ∈ Nat.digitChar (n % 10) :: ds, c.isDigit = true := by
      intro c hc
      rcases List.mem_cons.mp hc with rfl | hc
      · exact hd
      · exact h c hc
    simp only [Nat.toDigitsCore]
    split
    · exact h2
    · exact ih _ _ h2

theorem toDigitsCore_ne_nil (fuel : Nat) : ∀ (n : Nat) (ds : List Char),
    ds ≠ [] → Nat.toDigitsCore 10 fuel n ds ≠ [] := by
  induction fuel with
  | zero => intro n ds h; simpa [Nat.toDigitsCore] using h
  | succ f ih =>
    intro n ds h
    simp only [Nat.toDigitsCore]
    split
    · simp
    · exact ih _ _ (by simp)

/-- The `%d` rendering of a non-negative integer is a non-empty run of decimal
digits. -/
theorem toString_nonneg (n : Int) (h : 0 ≤ n) :
    ∃ ds : List Char, ds ≠ [] ∧ (∀ c ∈ ds, c.isDigit = true) ∧ toString n = String.mk ds := by
  obtain ⟨m, rfl⟩ := Int.eq_ofNat_of_zero_le h
  refine ⟨Nat.toDigits 10 m, ?_, ?_, rfl⟩
  · simp only [Nat.toDigits, Nat.toDigitsCore]
    split
    · simp
    · exact toDigitsCore_ne_nil _ _ _ (by simp)
  · exact toDigitsCore_digits _ _ _ (by simp)

/-- C6: on a stub that succeeds at every call, `CreateTUN("tun", mtu)` returns
a handle and a nil error; `MTU()` is `(mtu, nil)`; `Name()` is "tun" followed
by a non-empty run of decimal digits; the transport file is the descriptor the
`os.OpenFile` of the TUN device answered and the control descriptor is the one
the open of the IP device answered; the event queue holds exactly `EventUp`
and the error queue is empty. -/
theorem CreateTUN_success (os : StubOS) (mtu : Int) (w : World) (hok : Succeeds os) :
    ∃ tun w1 digits,
      CreateTUN os "tun" mtu w = .ret ((some tun, none), w1) ∧
      tun.MTU = (mtu, none) ∧
      tun.Name = (String.mk ('t' :: 'u' :: 'n' :: digits), none) ∧
      digits ≠ [] ∧ (∀ c ∈ digits, c.isDigit = true) ∧
      tun.tunFile = some (sys os (sys os w (.unixOpen "/dev/udp" .O_RDWR 0)).2
                            (.osOpenFile "/dev/tun" .O_RDWR 0)).1.ret ∧
      tun.ip_fd = (sys os w (.unixOpen "/dev/udp" .O_RDWR 0)).1.ret ∧
      tun.events = some ⟨[Event.EventUp], 10, false⟩ ∧
      tun.errors = some ⟨[], 1, false⟩ := by
  have h1 : (sys os w (.unixOpen "/dev/udp" .O_RDWR 0)).1.err = none := (hok _ _).1
  have h2 : (sys os (sys os w (.unixOpen "/dev/udp" .O_RDWR 0)).2
      (.osOpenFile "/dev/tun" .O_RDWR 0)).1.err = none := (hok _ _).1
  generalize hp1 : sys os w (.unixOpen "/dev/udp" .O_RDWR 0) = p1 at h1 h2 ⊢
  generalize hp2 : sys os p1.2 (.osOpenFile "/dev/tun" .O_RDWR 0) = p2 at h2 ⊢
  have h3 : (sys os p2.2 (.IoctlTunNewPPA p2.1.ret 0)).1.err = none := (hok _ _).1
  have h3r : 0 ≤ (sys os p2.2 (.IoctlTunNewPPA p2.1.ret 0)).1.ret := (hok _ _).2
  have hl : newPPALoop os p2.1.ret 128 0 0 p2.2
      = (.ok (sys os p2.2 (.IoctlTunNewPPA p2.1.ret 0)).1.ret,
         (sys os p2.2 (.IoctlTunNewPPA p2.1.ret 0)).2) :=
    newPPALoop_ok os p2.1.ret 127 0 0 p2.2 h3
  generalize sys os p2.2 (.IoctlTunNewPPA p2.1.ret 0) = p3 at h3 h3r hl
  obtain ⟨if_fd, muxid, evs, hp, -⟩ :=
    plumb_ok os mtu p1.1.ret p2.1.ret p3.1.ret p3.2 (fun h c _ => (hok h c).1)
  obtain ⟨ds, hne, hdig, hstr⟩ := toString_nonneg p3.1.ret h3r
  refine ⟨{ tunFile := some p2.1.ret, ip_fd := p1.1.ret, name := "tun" ++ toString p3.1.ret,
            mtu := mtu, events := some ⟨[Event.EventUp], 10, false⟩,
            errors := some ⟨[], 1, false⟩ },
    ⟨p3.2.openFds, p3.2.trace ++ evs⟩, ds, ?_, rfl, ?_, hne, hdig, rfl, rfl, rfl, rfl⟩
  · simp only [CreateTUN, ne_eq, not_true_eq_false, if_false, hp1, h1, hp2, h2, hl, hp]
  · simp only [NativeTun.Name, hstr]
    rfl

theorem stubOK_succeeds : Succeeds stubOK := by
  intro h c
  refine ⟨rfl, ?_⟩
  simp only [stubOK]
  omega

theorem CreateTUN_success_witness :
    Succeeds stubOK ∧
    ∃ tun w1 digits,
      CreateTUN stubOK "tun" 1500 world0 = .ret ((some tun, none), w1) ∧
      tun.MTU = (1500, none) ∧
      tun.Name = (String.mk ('t' :: 'u' :: 'n' :: digits), none) ∧
      digits ≠ [] ∧ (∀ c ∈ digits, c.isDigit = true) ∧
      tun.tunFile = some (sys stubOK (sys stubOK world0 (.unixOpen "/dev/udp" .O_RDWR 0)).2
                            (.osOpenFile "/dev/tun" .O_RDWR 0)).1.ret ∧
      tun.ip_fd = (sys stubOK world0 (.unixOpen "/dev/udp" .O_RDWR 0)).1.ret ∧
      tun.events = some ⟨[Event.EventUp], 10, false⟩ ∧
      tun.errors = some ⟨[], 1, false⟩ :=
  ⟨stubOK_succeeds, CreateTUN_success stubOK 1500 world0 stubOK_succeeds⟩

/-! ### Unit-number probing -/

/-- If the probe conflicts on the first `k` units tried from `t` on and
succeeds on unit `t + k`, within the bound, the loop issues exactly the probes
for `t, t + 1, …, t + k`, in that order, and leaves with the unit number the
last one answered. -/
theorem newPPALoop_probe (os : StubOS) (fd : Int) :
    ∀ (k n t : Nat) (p : Int) (w : World), k < n →
      (∀ h (i : Nat), i < k → (os h (.IoctlTunNewPPA fd ((t + i : Nat) : Int))).err
        = some EEXIST) →
      (∀ h, (os h (.IoctlTunNewPPA fd ((t + k : Nat) : Int))).err = none) →
      ∃ (evs : List Syscall) (rk : Response),
        newPPALoop os fd n (t : Int) p w
          = (.ok rk.ret,
             ⟨w.openFds, w.trace ++ (evs ++ [⟨.IoctlTunNewPPA fd ((t + k : Nat) : Int), rk⟩])⟩) ∧
        rk.err = none ∧
        evs.map Syscall.call
          = (List.range k).map (fun (i : Nat) => OSCall.IoctlTunNewPPA fd ((t + i : Nat) : Int)) := by
  intro k
  induction k with
  | zero =>
    intro n t p w hn _ hfree
    obtain ⟨m, rfl⟩ : ∃ m, n = m + 1 := ⟨n - 1, by omega⟩
    have h0 : (sys os w (.IoctlTunNewPPA fd (t : Int))).1.err = none := by
      have := hfree w.trace
      simpa [sys] using this
    refine ⟨[], (sys os w (.IoctlTunNewPPA fd (t : Int))).1, ?_, h0, by simp⟩
    rw [newPPALoop_ok os fd m t p w h0]
    simp [sys, effect]
  | succ k ih =>
    intro n t p w hn hbusy hfree
    obtain ⟨m, rfl⟩ : ∃ m, n = m + 1 := ⟨n - 1, by omega⟩
    have h0 : (sys os w (.IoctlTunNewPPA fd (t : Int))).1.err = some EEXIST := by
      have := hbusy w.trace 0 (by omega)
      simpa [sys] using this
    have hb : ∀ h (i : Nat), i < k →
        (os h (.IoctlTunNewPPA fd (((t + 1) + i : Nat) : Int))).err = some EEXIST := by
      intro h i hi
      have := hbusy h (i + 1) (by omega)
      rwa [show t + (i + 1) = t + 1 + i by omega] at this
    have hf : ∀ h, (os h (.IoctlTunNewPPA fd (((t + 1) + k : Nat) : Int))).err = none := by
      intro h
      have := hfree h
      rwa [show t + (k + 1) = t + 1 + k by omega] at this
    obtain ⟨evs, rk, hrun, hrk, hcalls⟩ :=
      ih m (t + 1) (sys os w (.IoctlTunNewPPA fd (t : Int))).1.ret
        (sys os w (.IoctlTunNewPPA fd (t : Int))).2 (by omega) hb hf
    refine ⟨⟨.IoctlTunNewPPA fd (t : Int), (sys os w (.IoctlTunNewPPA fd (t : Int))).1⟩ :: evs,
      rk, ?_, hrk, ?_⟩
    · rw [newPPALoop_conflict os fd m t p w h0]
      have hc : ((t : Int) + 1) = ((t + 1 : Nat) : Int) := by push_cast; rfl
      rw [hc, hrun]
      simp [sys, effect, show t + (k + 1) = t + 1 + k by omega]
    · rw [List.range_succ_eq_map, List.map_cons, List.map_cons, hcalls, List.map_map]
      simp only [Nat.add_zero, List.cons.injEq, true_and]
      apply List.map_congr_left
      intro i _
      simp only [Function.comp, Nat.succ_eq_add_one]
      rw [show t + (i + 1) = t + 1 + i by omega]

/-- C4: if the probe answers EEXIST to attempts `0 … k-1` and succeeds at
attempt `k < 128`, and every other call succeeds, then `CreateTUN("tun", mtu)`
returns a handle after issuing exactly: the two opens, the probes for units
`0, 1, …, k` in that order, and the six calls of the success path.  The unit
number `rk.ret` the probe at attempt `k` answered is the one passed to the
unit select, the one in the name the mux id is registered under, and `Name()`
is "tun" followed by its decimal rendering. -/
theorem CreateTUN_probes_in_order (os : StubOS) (mtu : Int) (w : World) (k : Nat)
    (hk : k < 128)
    (hbusy : ∀ h fd (i : Nat), i < k → (os h (.IoctlTunNewPPA fd (i : Int))).err = some EEXIST)
    (hfree : ∀ h fd, (os h (.IoctlTunNewPPA fd (k : Int))).err = none)
    (hrest : ∀ h c, OSCall.isProbe c = false → (os h c).err = none) :
    ∃ (tun : NativeTun) (w1 : World) (ip_fd tunFd if_fd muxid : Int) (rk : Response),
      CreateTUN os "tun" mtu w = .ret ((some tun, none), w1) ∧
      (issued w w1).map Syscall.call
        = [.unixOpen "/dev/udp" .O_RDWR 0, .osOpenFile "/dev/tun" .O_RDWR 0]
          ++ (List.range (k + 1)).map (fun (i : Nat) => OSCall.IoctlTunNewPPA tunFd (i : Int))
          ++ [.unixOpen "/dev/tun" .O_RDWR 0, .IoctlSetString if_fd .I_PUSH "ip",
              .IoctlSetPointerInt if_fd .IF_UNITSEL rk.ret, .IoctlPlink ip_fd if_fd,
              .unixClose if_fd, .IoctlSetIPMuxID ip_fd ("tun" ++ toString rk.ret) muxid] ∧
      ⟨.IoctlTunNewPPA tunFd (k : Int), rk⟩ ∈ issued w w1 ∧ rk.err = none ∧
      tun.Name = ("tun" ++ toString rk.ret, none) := by
  have h1 : (sys os w (.unixOpen "/dev/udp" .O_RDWR 0)).1.err = none := hrest _ _ rfl
  have h2 : (sys os (sys os w (.unixOpen "/dev/udp" .O_RDWR 0)).2
      (.osOpenFile "/dev/tun" .O_RDWR 0)).1.err = none := hrest _ _ rfl
  have hw1 := sys_spec os w (.unixOpen "/dev/udp" .O_RDWR 0)
  generalize hp1 : sys os w (.unixOpen "/dev/udp" .O_RDWR 0) = p1 at h1 h2 hw1
  have hw2 := sys_spec os p1.2 (.osOpenFile "/dev/tun" .O_RDWR 0)
  generalize hp2 : sys os p1.2 (.osOpenFile "/dev/tun" .O_RDWR 0) = p2 at h2 hw2
  obtain ⟨evs, rk, hl, hrk, hcalls⟩ :=
    newPPALoop_probe os p2.1.ret k 128 0 0 p2.2 hk
      (fun h i hi => by simpa using hbusy h p2.1.ret i hi)
      (fun h => by simpa using hfree h p2.1.ret)
  simp only [Nat.zero_add, Nat.cast_zero] at hl hcalls
  obtain ⟨if_fd, muxid, evs2, hp, hcalls2⟩ :=
    plumb_ok os mtu p1.1.ret p2.1.ret rk.ret
      ⟨p2.2.openFds, p2.2.trace ++ (evs ++ [⟨.IoctlTunNewPPA p2.1.ret (k : Int), rk⟩])⟩ hrest
  refine ⟨{ tunFile := some p2.1.ret, ip_fd := p1.1.ret, name := "tun" ++ toString rk.ret,
            mtu := mtu, events := some ⟨[Event.EventUp], 10, false⟩,
            errors := some ⟨[], 1, false⟩ },
    ⟨p2.2.openFds,
     p2.2.trace ++ (evs ++ [⟨.IoctlTunNewPPA p2.1.ret (k : Int), rk⟩]) ++ evs2⟩,
    p1.1.ret, p2.1.ret, if_fd, muxid, rk, ?_, ?_, ?_, hrk, rfl⟩
  · simp only [CreateTUN, ne_eq, not_true_eq_false, if_false, hp1, h1, hp2, h2, hl, hp]
  · simp only [issued, hw2, hw1, List.append_assoc, List.drop_left, List.map_append,
      List.map_cons, List.map_nil, hcalls, hcalls2, List.range_succ, List.singleton_append,
      List.cons_append, List.nil_append]
  · simp [issued, hw2, hw1]

theorem CreateTUN_probes_in_order_witness :
    (2 < 128 ∧
      (∀ h fd (i : Nat), i < 2 →
        (stubTwoTaken h (.IoctlTunNewPPA fd (i : Int))).err = some EEXIST) ∧
      (∀ h fd, (stubTwoTaken h (.IoctlTunNewPPA fd ((2 : Nat) : Int))).err = none) ∧
      (∀ h c, OSCall.isProbe c = false → (stubTwoTaken h c).err = none)) ∧
    ∃ (tun : NativeTun) (w1 : World) (ip_fd tunFd if_fd muxid : Int) (rk : Response),
      CreateTUN stubTwoTaken "tun" 1500 world0 = .ret ((some tun, none), w1) ∧
      (issued world0 w1).map Syscall.call
        = [.unixOpen "/dev/udp" .O_RDWR 0, .osOpenFile "/dev/tun" .O_RDWR 0]
          ++ (List.range (2 + 1)).map (fun (i : Nat) => OSCall.IoctlTunNewPPA tunFd (i : Int))
          ++ [.unixOpen "/dev/tun" .O_RDWR 0, .IoctlSetString if_fd .I_PUSH "ip",
              .IoctlSetPointerInt if_fd .IF_UNITSEL rk.ret, .IoctlPlink ip_fd if_fd,
              .unixClose if_fd, .IoctlSetIPMuxID ip_fd ("tun" ++ toString rk.ret) muxid] ∧
      ⟨.IoctlTunNewPPA tunFd ((2 : Nat) : Int), rk⟩ ∈ issued world0 w1 ∧ rk.err = none ∧
      tun.Name = ("tun" ++ toString rk.ret, none) :=
  have hbusy : ∀ h fd (i : Nat), i < 2 →
      (stubTwoTaken h (.IoctlTunNewPPA fd (i : Int))).err = some EEXIST := by
    intro h fd i hi
    have : (i : Int) < 2 := by omega
    simp [stubTwoTaken, this]
  have hfree : ∀ h fd, (stubTwoTaken h (.IoctlTunNewPPA fd ((2 : Nat) : Int))).err = none := by
    intro h fd
    simp [stubTwoTaken]
  have hrest : ∀ h c, OSCall.isProbe c = false → (stubTwoTaken h c).err = none := by
    intro h c hc
    cases c <;> simp [stubTwoTaken, OSCall.isProbe] at hc ⊢
  ⟨⟨by decide, hbusy, hfree, hrest⟩,
   CreateTUN_probes_in_order stubTwoTaken 1500 world0 2 (by decide) hbusy hfree hrest⟩

/-! ### Exhausted probing -/

/-- When every probe conflicts, the loop runs out of attempts and is left
normally, with `ppa` holding whatever the last probe assigned. -/
theorem newPPALoop_exhausted (os : StubOS) (fd : Int)
    (hbusy : ∀ h t, (os h (.IoctlTunNewPPA fd t)).err = some EEXIST) :
    ∀ (n : Nat) (t p : Int) (w : World), ∃ ppa evs,
      newPPALoop os fd n t p w = (.ok ppa, ⟨w.openFds, w.trace ++ evs⟩) ∧ evs.length = n := by
  intro n
  induction n with
  | zero => intro t p w; exact ⟨p, [], by simp [newPPALoop], rfl⟩
  | succ n ih =>
    intro t p w
    have h0 : (sys os w (.IoctlTunNewPPA fd t)).1.err = some EEXIST := hbusy _ _
    obtain ⟨ppa, evs, hrun, hlen⟩ :=
      ih (t + 1) (sys os w (.IoctlTunNewPPA fd t)).1.ret (sys os w (.IoctlTunNewPPA fd t)).2
    refine ⟨ppa, ⟨.IoctlTunNewPPA fd t, (sys os w (.IoctlTunNewPPA fd t)).1⟩ :: evs, ?_, ?_⟩
    · rw [newPPALoop_conflict os fd n t p w h0, hrun]
      simp [sys, effect]
    · simp [hlen]

/-- On any stub in which every probe answers EEXIST and every other call
succeeds, `CreateTUN("tun", mtu)` returns a handle and a nil error, with the
control descriptor and the transport descriptor both still open. -/
theorem CreateTUN_exhausted (os : StubOS) (mtu : Int) (w : World)
    (hbusy : ∀ h fd t, (os h (.IoctlTunNewPPA fd t)).err = some EEXIST)
    (hrest : ∀ h c, OSCall.isProbe c = false → (os h c).err = none) :
    ∃ (tun : NativeTun) (w1 : World) (ip_fd tunFd : Int),
      CreateTUN os "tun" mtu w = .ret ((some tun, none), w1) ∧
      tun.ip_fd = ip_fd ∧ tun.tunFile = some tunFd ∧
      w1.openFds = tunFd :: ip_fd :: w.openFds := by
  have h1 : (sys os w (.unixOpen "/dev/udp" .O_RDWR 0)).1.err = none := hrest _ _ rfl
  have h2 : (sys os (sys os w (.unixOpen "/dev/udp" .O_RDWR 0)).2
      (.osOpenFile "/dev/tun" .O_RDWR 0)).1.err = none := hrest _ _ rfl
  have hw1 := sys_spec os w (.unixOpen "/dev/udp" .O_RDWR 0)
  generalize hp1 : sys os w (.unixOpen "/dev/udp" .O_RDWR 0) = p1 at h1 h2 hw1
  have hw2 := sys_spec os p1.2 (.osOpenFile "/dev/tun" .O_RDWR 0)
  generalize hp2 : sys os p1.2 (.osOpenFile "/dev/tun" .O_RDWR 0) = p2 at h2 hw2
  obtain ⟨ppa, evs, hl, -⟩ :=
    newPPALoop_exhausted os p2.1.ret (fun h t => hbusy h p2.1.ret t) 128 0 0 p2.2
  obtain ⟨if_fd, muxid, evs2, hp, -⟩ :=
    plumb_ok os mtu p1.1.ret p2.1.ret ppa ⟨p2.2.openFds, p2.2.trace ++ evs⟩ hrest
  refine ⟨{ tunFile := some p2.1.ret, ip_fd := p1.1.ret, name := "tun" ++ toString ppa,
            mtu := mtu, events := some ⟨[Event.EventUp], 10, false⟩,
            errors := some ⟨[], 1, false⟩ },
    ⟨p2.2.openFds, p2.2.trace ++ evs ++ evs2⟩, p1.1.ret, p2.1.ret, ?_, rfl, rfl, ?_⟩
  · simp only [CreateTUN, ne_eq, not_true_eq_false, if_false, hp1, h1, hp2, h2, hl, hp]
  · simp [hw2, hw1, effect, h1, h2]

end Tun

namespace Ipc

open Tun (Chan Exec GoError error)

theorem UAPIListen_fresh : UAPIListen none = (some fresh, none) := rfl

/-- C10 (the claim fails): with two inbound connections and no `Accept`, the
first connection is still sitting in `connNew`, yet the worker has entered
the underlying accept twice and accepted the second connection too; the
adapter holds both, the second one in the worker blocked on its deposit. -/
theorem worker_accepts_second_connection :
    (run fresh twoInbound).connNew.buf = [1] ∧
    (run fresh twoInbound).acceptCalls = 2 ∧
    (run fresh twoInbound).accepted = [1, 2] ∧
    held (run fresh twoInbound) = [1, 2] ∧
    (run fresh twoInbound).pc = .sendConn 2 := by
  decide

theorem inv_fresh : Inv fresh := by
  simp [Inv, fresh, held, Chan.make]

theorem inv_act (l : UAPIListener) (a : Action) (h : Inv l) : Inv (act l a) := by
  obtain ⟨hcap, hcl, hlen, hacc, hpc⟩ := h
  cases a with
  | inbound r =>
    exact ⟨hcap, hcl, hlen, hacc, hpc⟩
  | worker =>
    simp only [act, workerStep]
    cases hp : l.pc with
    | callAccept =>
      simp only [hp] at hpc hacc
      simp [Inv, held, hcap, hcl, hlen, hpc, hp] at hacc ⊢
      exact hacc
    | inAccept =>
      simp only [hp] at hpc
      cases hq : l.pending with
      | nil =>
        simp only [Option.getD_none]
        exact ⟨hcap, hcl, hlen, hacc, by simp [hp, hpc]⟩
      | cons r rest =>
        cases r with
        | conn c =>
          simp [Inv, held, hcap, hcl, hlen, hpc, hp] at hacc ⊢
          exact hacc
        | err e =>
          simp [Inv, held, hcap, hcl, hlen, hpc, hp] at hacc ⊢
          exact hacc
    | sendConn c =>
      simp only [hp] at hpc
      simp only [Chan.send, hcl, Bool.false_eq_true, if_false, hcap]
      by_cases hb : l.connNew.buf.length < 1
      · have hnil : l.connNew.buf = [] := List.length_eq_zero.mp (by omega)
        simp [Inv, held, hcap, hcl, hpc, hp, hnil] at hacc ⊢
        exact hacc
      · simp only [hb, if_false, Option.getD_none]
        exact ⟨hcap, hcl, hlen, hacc, by simp [hp, hpc]⟩
    | sendErr e =>
      simp only [hp] at hpc
      simp only []
      cases hs : Chan.send (some l.connErr) (some e) with
      | ret ch =>
        simp [Inv, held, hcap, hcl, hlen, hpc, hp] at hacc ⊢
        exact hacc
      | panic m =>
        simp [Inv, held, hcap, hcl, hlen, hpc, hp] at hacc ⊢
        exact hacc
      | block =>
        simp only [Option.getD_none]
        exact ⟨hcap, hcl, hlen, hacc, by simp [hp, hpc]⟩
    | done =>
      simp only [Option.getD_none]
      exact ⟨hcap, hcl, hlen, hacc, by simp [hp]; simpa [hp] using hpc⟩
    | panicked =>
      simp only [Option.getD_none]
      exact ⟨hcap, hcl, hlen, hacc, by simp [hp]; simpa [hp] using hpc⟩

theorem inv_run (as : List Action) : ∀ l, Inv l → Inv (run l as) := by
  induction as with
  | nil => intro l h; exact h
  | cons a as ih => intro l h; exact ih _ (inv_act l a h)

/-- C10 as amended: in every run after a successful `UAPIListen` in which the
consumer never calls `Accept`, at most one connection is buffered in
`connNew`, the adapter holds at most two accepted connections (every accepted
connection is still held: the buffered one and the one the worker is blocked
depositing), and the worker enters the underlying accept at most twice, so a
third inbound connection is never accepted before the first is drained. -/
theorem backpressure_bound (as : List Action) :
    (run fresh as).connNew.buf.length ≤ 1 ∧
    (run fresh as).accepted = held (run fresh as) ∧
    (held (run fresh as)).length ≤ 2 ∧
    (run fresh as).acceptCalls ≤ 2 := by
  obtain ⟨_, _, hlen, hacc, hpc⟩ := inv_run as fresh inv_fresh
  refine ⟨hlen, hacc, ?_, ?_⟩
  · simp only [held]
    cases hp : (run fresh as).pc <;> simp <;> omega
  · cases hp : (run fresh as).pc <;> simp only [hp] at hpc <;> omega

end Ipc
